import Mathlib

/-!
Verification of the tenant-scoped field-level encryption layer of kp-dagger.

The development shallowly embeds `src/kp_dagger/core/encryption.py`
(`KDFConfig`, `TenantEncryptionService`, `EncryptionServiceManager`) and
`src/kp_dagger/models/base/encryption.py` (`EncryptedField`).

Modelling conventions:
* Python `bytes` are `List Nat` (one entry per byte; entries are unbounded
  naturals, which only matters inside the ideal primitives below).
* Python exceptions are an explicit `PyError` value returned through
  `Except`; `raise` is `.error`, `try/except` is a `match` on the result.
* The external cryptographic primitives (argon2's `hash_secret_raw`,
  `PBKDF2HMAC`, `AESGCM` from the `cryptography` package) are not part of
  the repository; they are replaced by ideal functionalities that are
  deterministic and injective in their inputs, matching the interface
  behaviour the specification attributes to them (deterministic key
  derivation, exact AEAD tag verification).
* The randomness consumed by `os.urandom` is passed in explicitly: `encrypt`
  takes the drawn `salt` and `nonce` as arguments.
* A `uuid.UUID` tenant id is represented by its canonical textual form
  `str(tenant_id)` (a `String`); distinct UUIDs have distinct canonical
  forms, so UUID inequality is string inequality.
-/

/-- The Python exceptions that can flow through the embedded code.
`encryptionConfigError` and `decryptionError` are the repository's own
exception classes; `invalidTag` is `cryptography.exceptions.InvalidTag`;
the rest are Python builtins. -/
inductive PyError where
  | encryptionConfigError (msg : String)
  | decryptionError (msg : String)
  | valueError (msg : String)
  | runtimeError (msg : String)
  | attributeError (msg : String)
  | invalidTag
  | unicodeDecodeError
deriving DecidableEq

deriving instance DecidableEq for Except

/-- The string rendering `str(e)` of an exception, used by the
`f"Failed to decrypt data: {e}"` message in `decrypt`. -/
def PyError.message : PyError → String
  | .encryptionConfigError m => m
  | .decryptionError m => m
  | .valueError m => m
  | .runtimeError m => m
  | .attributeError m => m
  | .invalidTag => ""
  | .unicodeDecodeError => "invalid utf-8 payload"

/-- Base used by `encodeNatList` for the list `l`: strictly larger than
every digit `a + 1` with `a ∈ l`. -/
def natListBase (l : List Nat) : Nat := l.foldr max 0 + 2

/-- Positional value of `l` in base `B`, with digit `a + 1` for entry `a`
(so digits are never zero and the length is recoverable). -/
def natListVal (B : Nat) (l : List Nat) : Nat :=
  l.foldr (fun a acc => acc * B + (a + 1)) 0

/-- Injective encoding of a list of naturals into one natural, used by the
ideal models of the external KDF and AEAD primitives as a collision-free
fingerprint of their byte-sequence inputs. -/
def encodeNatList (l : List Nat) : Nat :=
  Nat.pair (natListBase l) (natListVal (natListBase l) l)

/-- UTF-8 encoding of one Unicode code point (the byte layout produced by
Python's `str.encode("utf-8")` for each character). -/
def utf8EncodeChar (c : Nat) : List Nat :=
  if c < 0x80 then [c]
  else if c < 0x800 then [0xC0 + c / 0x40, 0x80 + c % 0x40]
  else if c < 0x10000 then
    [0xE0 + c / 0x1000, 0x80 + c / 0x40 % 0x40, 0x80 + c % 0x40]
  else
    [0xF0 + c / 0x40000, 0x80 + c / 0x1000 % 0x40, 0x80 + c / 0x40 % 0x40,
      0x80 + c % 0x40]

/-- Model of `s.encode("utf-8")`: the UTF-8 bytes of a string. -/
def utf8Encode (s : String) : List Nat :=
  (s.data.map (fun c => utf8EncodeChar c.toNat)).flatten

mutual

/-- Strict UTF-8 decoder at the level of code points, rejecting stray or
missing continuation bytes, overlong forms, surrogates and values above
U+10FFFF, as Python's `bytes.decode("utf-8")` does. `utf8DecodeTail2/3/4`
handle the continuation bytes of 2-, 3- and 4-byte sequences. -/
def utf8DecodeCodepoints : List Nat → Option (List Nat)
  | [] => some []
  | b :: rest =>
    if b < 0x80 then (utf8DecodeCodepoints rest).map (fun l => b :: l)
    else if b < 0xC2 then none
    else if b < 0xE0 then utf8DecodeTail2 b rest
    else if b < 0xF0 then utf8DecodeTail3 b rest
    else if b < 0xF5 then utf8DecodeTail4 b rest
    else none

def utf8DecodeTail2 (b : Nat) : List Nat → Option (List Nat)
  | b1 :: rest1 =>
    if 0x80 ≤ b1 ∧ b1 < 0xC0 then
      (utf8DecodeCodepoints rest1).map (fun l => ((b - 0xC0) * 0x40 + (b1 - 0x80)) :: l)
    else none
  | [] => none

def utf8DecodeTail3 (b : Nat) : List Nat → Option (List Nat)
  | b1 :: b2 :: rest2 =>
    if 0x80 ≤ b1 ∧ b1 < 0xC0 ∧ 0x80 ≤ b2 ∧ b2 < 0xC0 then
      if (b - 0xE0) * 0x1000 + (b1 - 0x80) * 0x40 + (b2 - 0x80) < 0x800 ∨
          (0xD800 ≤ (b - 0xE0) * 0x1000 + (b1 - 0x80) * 0x40 + (b2 - 0x80) ∧
            (b - 0xE0) * 0x1000 + (b1 - 0x80) * 0x40 + (b2 - 0x80) < 0xE000) then none
      else (utf8DecodeCodepoints rest2).map
        (fun l => ((b - 0xE0) * 0x1000 + (b1 - 0x80) * 0x40 + (b2 - 0x80)) :: l)
    else none
  | _ => none

def utf8DecodeTail4 (b : Nat) : List Nat → Option (List Nat)
  | b1 :: b2 :: b3 :: rest3 =>
    if 0x80 ≤ b1 ∧ b1 < 0xC0 ∧ 0x80 ≤ b2 ∧ b2 < 0xC0 ∧ 0x80 ≤ b3 ∧ b3 < 0xC0 then
      if (b - 0xF0) * 0x40000 + (b1 - 0x80) * 0x1000 + (b2 - 0x80) * 0x40 +
            (b3 - 0x80) < 0x10000 ∨
          0x110000 ≤ (b - 0xF0) * 0x40000 + (b1 - 0x80) * 0x1000 + (b2 - 0x80) * 0x40 +
            (b3 - 0x80) then none
      else (utf8DecodeCodepoints rest3).map
        (fun l => ((b - 0xF0) * 0x40000 + (b1 - 0x80) * 0x1000 + (b2 - 0x80) * 0x40 +
          (b3 - 0x80)) :: l)
    else none
  | _ => none

end

/-- Model of `bytes.decode("utf-8")`: decode UTF-8 bytes back to a string, `none` on
invalid input (Python raises `UnicodeDecodeError` there). -/
def utf8Decode (bytes : List Nat) : Option String :=
  (utf8DecodeCodepoints bytes).map (fun l => String.mk (l.map Char.ofNat))

/-- Constant `MIN_RUNTIME_KEY_LENGTH` from `core/encryption.py`. -/
def MIN_RUNTIME_KEY_LENGTH : Nat := 32

/-- Constant `PBKDF2_ITERATIONS` from `core/encryption.py`. -/
def PBKDF2_ITERATIONS : Nat := 600000

/-- Constant `GCM_NONCE_LENGTH` from `core/encryption.py`. -/
def GCM_NONCE_LENGTH : Nat := 12

/-- AES-GCM authentication tags are 16 bytes. -/
def GCM_TAG_LENGTH : Nat := 16

/-- Flag `HAS_ARGON2` from `core/encryption.py`: whether the `argon2-cffi` import
succeeded. The unit tests of the repository construct services with the
default Argon2id configuration and assert success, so the verified
environment has the library available. -/
def HAS_ARGON2 : Bool := true

/-- Modelled from the spec: ideal functionality for
`argon2.low_level.hash_secret_raw` (the external Argon2id primitive, not
part of this repository). The spec requires the derivation to be
deterministic in `(key_material, salt)` and distinct inputs to yield
distinct keys; the model realises this with a collision-free fingerprint in
the first byte slot of a `hash_len`-byte output. -/
def hash_secret_raw (secret salt : List Nat)
    (time_cost memory_cost parallelism hash_len : Nat) : List Nat :=
  if hash_len = 0 then []
  else
    Nat.pair 0 (Nat.pair (Nat.pair (encodeNatList secret) (encodeNatList salt))
      (encodeNatList [time_cost, memory_cost, parallelism])) ::
      List.replicate (hash_len - 1) 0

/-- Modelled from the spec: ideal functionality for
`PBKDF2HMAC(SHA256).derive` from the `cryptography` package (external).
Deterministic and collision-free in `(key_material, salt)`, tagged apart
from the Argon2id functionality. -/
def pbkdf2_derive (key_material salt : List Nat)
    (length iterations : Nat) : List Nat :=
  if length = 0 then []
  else
    Nat.pair 1 (Nat.pair (Nat.pair (encodeNatList key_material) (encodeNatList salt))
      (encodeNatList [iterations])) ::
      List.replicate (length - 1) 0

/-- Modelled from the spec: the authentication tag an ideal AES-256-GCM
attaches to a message. The spec relies on "AEAD tag verification is exact",
so the tag is a collision-free fingerprint of `(key, nonce, plaintext)`
occupying the 16 tag-byte slots. -/
def aesgcm_tag (key nonce pt : List Nat) : List Nat :=
  Nat.pair (encodeNatList key) (Nat.pair (encodeNatList nonce) (encodeNatList pt)) ::
    List.replicate (GCM_TAG_LENGTH - 1) 0

/-- The key-length validation performed by the `AESGCM` constructor of the
`cryptography` package: AES keys are 128, 192 or 256 bits. -/
def AESGCM_new (key : List Nat) : Except PyError (List Nat) :=
  if key.length = 16 ∨ key.length = 24 ∨ key.length = 32 then .ok key
  else .error (.valueError "AESGCM key must be 128, 192, or 256 bits.")

/-- Modelled from the spec: ideal AES-256-GCM encryption
(`AESGCM(key).encrypt(nonce, data, None)`): ciphertext is plaintext plus a
16-byte authentication tag. -/
def aesgcm_encrypt (key nonce pt : List Nat) : List Nat :=
  pt ++ aesgcm_tag key nonce pt

/-- Modelled from the spec: ideal AES-256-GCM decryption
(`AESGCM(key).decrypt(nonce, data, None)`): strip the 16-byte tag, verify
it exactly against `(key, nonce, body)`; `none` models the `InvalidTag`
exception raised on short input or on any mismatch. -/
def aesgcm_decrypt (key nonce ct : List Nat) : Option (List Nat) :=
  if ct.length < GCM_TAG_LENGTH then none
  else
    if ct.drop (ct.length - GCM_TAG_LENGTH) =
        aesgcm_tag key nonce (ct.take (ct.length - GCM_TAG_LENGTH)) then
      some (ct.take (ct.length - GCM_TAG_LENGTH))
    else none

/-- Class `KDFConfig` from `core/encryption.py`: configuration for key
derivation. -/
structure KDFConfig where
  algorithm : String
  time_cost : Nat
  memory_cost : Nat
  parallelism : Nat
  salt_length : Nat
  key_length : Nat
deriving DecidableEq

/-- Constructor `KDFConfig.__init__`: stores the parameters and raises
`EncryptionConfigError` when Argon2id is requested but the `argon2-cffi`
library is unavailable. No other validation is performed. -/
def KDFConfig.make (algorithm : String) (time_cost memory_cost parallelism
    salt_length key_length : Nat) : Except PyError KDFConfig :=
  if algorithm = "argon2id" ∧ HAS_ARGON2 = false then
    .error (.encryptionConfigError "argon2-cffi library is required for Argon2id support")
  else
    .ok ⟨algorithm, time_cost, memory_cost, parallelism, salt_length, key_length⟩

/-- Value `KDFConfig()` with all defaults, as evaluated by
`kdf_config or KDFConfig()`. -/
def KDFConfig.default : Except PyError KDFConfig :=
  KDFConfig.make "argon2id" 3 65536 1 32 32

/-- Class `TenantEncryptionService` from `core/encryption.py`. `tenant_id` holds
the canonical textual form `str(tenant_id)` of the tenant UUID. -/
structure TenantEncryptionService where
  tenant_id : String
  runtime_key : List Nat
  kdf_config : KDFConfig
deriving DecidableEq

/-- Constructor `TenantEncryptionService.__init__`: resolves
`kdf_config or KDFConfig()` (which itself may raise), then raises
`EncryptionConfigError` when the runtime key is shorter than
`MIN_RUNTIME_KEY_LENGTH` bytes. -/
def TenantEncryptionService.make (tenant_id : String) (runtime_key : List Nat)
    (kdf_config : Option KDFConfig) : Except PyError TenantEncryptionService := do
  let cfg ← match kdf_config with
    | some c => Except.ok c
    | none => KDFConfig.default
  if runtime_key.length < MIN_RUNTIME_KEY_LENGTH then
    Except.error (.encryptionConfigError "Runtime key must be at least 32 bytes")
  else
    Except.ok ⟨tenant_id, runtime_key, cfg⟩

/-- Method `TenantEncryptionService._derive_key`: key material is
`str(self.tenant_id).encode() + self.runtime_key`; dispatches on the
configured algorithm and raises `EncryptionConfigError` for an unsupported
one. `_derive_key_argon2` and `_derive_key_pbkdf2` are inlined as the calls
to the corresponding (ideal) primitives with the configured parameters. -/
def TenantEncryptionService._derive_key (svc : TenantEncryptionService)
    (salt : List Nat) : Except PyError (List Nat) :=
  if svc.kdf_config.algorithm = "argon2id" then
    .ok (hash_secret_raw (utf8Encode svc.tenant_id ++ svc.runtime_key) salt
      svc.kdf_config.time_cost svc.kdf_config.memory_cost
      svc.kdf_config.parallelism svc.kdf_config.key_length)
  else if svc.kdf_config.algorithm = "pbkdf2" then
    .ok (pbkdf2_derive (utf8Encode svc.tenant_id ++ svc.runtime_key) salt
      svc.kdf_config.key_length PBKDF2_ITERATIONS)
  else
    .error (.encryptionConfigError ("Unsupported KDF: " ++ svc.kdf_config.algorithm))

/-- Method `TenantEncryptionService.encrypt`: empty plaintext short-circuits to
`b""`; otherwise derive a key from a fresh salt and AEAD-encrypt with a
fresh nonce, returning `salt + nonce + ciphertext`. The `salt` and `nonce`
arguments are the bytes drawn from `os.urandom`. -/
def TenantEncryptionService.encrypt (svc : TenantEncryptionService)
    (salt nonce : List Nat) (plaintext : String) : Except PyError (List Nat) :=
  if plaintext = "" then .ok []
  else do
    let key ← svc._derive_key salt
    let aesgcm ← AESGCM_new key
    Except.ok (salt ++ nonce ++ aesgcm_encrypt aesgcm nonce (utf8Encode plaintext))

/-- The body of the `try` block of `TenantEncryptionService.decrypt`:
slice the blob into salt, nonce and ciphertext+tag, derive the key, AEAD
decrypt, UTF-8 decode. Each failure is the exception the corresponding
Python operation raises. -/
def TenantEncryptionService.decryptAttempt (svc : TenantEncryptionService)
    (encrypted_data : List Nat) : Except PyError String := do
  let salt := encrypted_data.take svc.kdf_config.salt_length
  let nonce := (encrypted_data.drop svc.kdf_config.salt_length).take GCM_NONCE_LENGTH
  let ciphertext := encrypted_data.drop (svc.kdf_config.salt_length + GCM_NONCE_LENGTH)
  let key ← svc._derive_key salt
  let aesgcm ← AESGCM_new key
  match aesgcm_decrypt aesgcm nonce ciphertext with
  | none => Except.error .invalidTag
  | some plaintext_bytes =>
    match utf8Decode plaintext_bytes with
    | none => Except.error .unicodeDecodeError
    | some s => Except.ok s

/-- Method `TenantEncryptionService.decrypt`: empty input short-circuits to an empty string;
otherwise run the `try` body and convert any exception `e` raised inside it
into `DecryptionError(f"Failed to decrypt data: {e}")`. -/
def TenantEncryptionService.decrypt (svc : TenantEncryptionService)
    (encrypted_data : List Nat) : Except PyError String :=
  if encrypted_data = [] then .ok ""
  else
    match svc.decryptAttempt encrypted_data with
    | .ok s => .ok s
    | .error e => .error (.decryptionError ("Failed to decrypt data: " ++ e.message))

/-- Class `EncryptionServiceManager` from `core/encryption.py`. The Python dict
`_services` is modelled as a map from tenant id to an optional service;
a dict holds at most one value per key, which the function type makes
structural. -/
structure EncryptionServiceManager where
  runtime_key : List Nat
  kdf_config : KDFConfig
  _services : String → Option TenantEncryptionService

/-- Constructor `EncryptionServiceManager.__init__` with an explicit `kdf_config`
argument (`kdf_config or KDFConfig()` resolves the `None` case through
`KDFConfig.default`, which may raise). -/
def EncryptionServiceManager.make (runtime_key : List Nat)
    (kdf_config : Option KDFConfig) : Except PyError EncryptionServiceManager := do
  let cfg ← match kdf_config with
    | some c => Except.ok c
    | none => KDFConfig.default
  Except.ok ⟨runtime_key, cfg, fun _ => none⟩

/-- Method `EncryptionServiceManager.get_service`: construct and insert a service
on first access for a tenant, then return the stored one. Returns the
service together with the manager's updated state; a construction failure
(short runtime key) propagates. -/
def EncryptionServiceManager.get_service (m : EncryptionServiceManager)
    (tenant_id : String) :
    Except PyError (TenantEncryptionService × EncryptionServiceManager) :=
  match m._services tenant_id with
  | some svc => .ok (svc, m)
  | none => do
    let svc ← TenantEncryptionService.make tenant_id m.runtime_key (some m.kdf_config)
    Except.ok (svc,
      { m with _services := fun t => if t = tenant_id then some svc else m._services t })

/-- A Python value as far as the `EncryptedField` descriptor observes it:
`None`, a string, a bytes blob, a bound encryption service, or some other
object carrying its `str()` rendering. -/
inductive PyValue where
  | none
  | str (s : String)
  | bytes (b : List Nat)
  | service (svc : TenantEncryptionService)
  | other (id : Nat) (strForm : String)
deriving DecidableEq

/-- Rendering `str(value)` as applied by `EncryptedField.__set__`. For the shapes a
claim exercises only `str` and `other` matter; the remaining renderings are
immaterial placeholders. -/
def PyValue.strFn : PyValue → String
  | .none => "None"
  | .str s => s
  | .bytes _ => "<bytes>"
  | .service _ => "<TenantEncryptionService>"
  | .other _ strForm => strForm

/-- A model instance as the descriptor observes it: its attribute
dictionary. `getattr`/`setattr`/`hasattr`/`delattr` below mirror the
Python builtins; an absent key is a missing attribute, distinct from an
attribute set to `None`. -/
structure PyObj where
  attrs : List (String × PyValue)
deriving DecidableEq

def PyObj.getAttrOpt (o : PyObj) (name : String) : Option PyValue :=
  (o.attrs.find? (fun p => p.1 == name)).map (fun p => p.2)

/-- Builtin `getattr(obj, name, None)`. -/
def PyObj.getattrD (o : PyObj) (name : String) : PyValue :=
  (o.getAttrOpt name).getD .none

/-- Builtin `hasattr(obj, name)`. -/
def PyObj.hasattr (o : PyObj) (name : String) : Bool :=
  (o.getAttrOpt name).isSome

def updateAssoc : List (String × PyValue) → String → PyValue →
    List (String × PyValue)
  | [], n, v => [(n, v)]
  | (k, w) :: rest, n, v =>
    if k = n then (n, v) :: rest else (k, w) :: updateAssoc rest n v

/-- Builtin `setattr(obj, name, v)`. -/
def PyObj.setattr (o : PyObj) (name : String) (v : PyValue) : PyObj :=
  ⟨updateAssoc o.attrs name v⟩

/-- Builtin `delattr(obj, name)`. -/
def PyObj.delattr (o : PyObj) (name : String) : PyObj :=
  ⟨o.attrs.filter (fun p => ¬ p.1 = name)⟩

/-- Class `EncryptedField` from `models/base/encryption.py`: descriptor state set
by `__init__` and `__set_name__`. -/
structure EncryptedField where
  storage_field : String
  nullable : Bool
  name : String
deriving DecidableEq

/-- Field `private_name` from `__set_name__`: an underscore prepended to the attribute name. -/
def EncryptedField.private_name (f : EncryptedField) : String := "_" ++ f.name

/-- Descriptor method `EncryptedField.__get__` on an instance: serve a cached plaintext if
present; treat a `None`/absent storage field as a null value; require a
bound `_encryption_service` (a `RuntimeError` otherwise); decrypt, caching
the result, and convert a `DecryptionError` into `None`. A non-bytes,
non-`None` storage value reaches `decrypt`, whose catch-all turns the
resulting `TypeError` into a `DecryptionError`, hence the same `None`
outcome. Returns the produced value with the possibly updated instance. -/
def EncryptedField.get (f : EncryptedField) (obj : PyObj) :
    Except PyError (PyValue × PyObj) :=
  if obj.hasattr f.private_name then .ok (obj.getattrD f.private_name, obj)
  else
    match obj.getattrD f.storage_field with
    | .none => .ok (.none, obj)
    | storedVal =>
      match obj.getattrD "_encryption_service" with
      | .none => .error (.runtimeError "Encryption service not available for decryption")
      | .service svc =>
        match (match storedVal with
          | .bytes b => svc.decrypt b
          | _ => .error (.decryptionError "Failed to decrypt data: not a bytes object")) with
        | .ok s => .ok (.str s, obj.setattr f.private_name (.str s))
        | .error (.decryptionError _) => .ok (.none, obj)
        | .error e => .error e
      | _ => .error (.attributeError "decrypt")

/-- Descriptor method `EncryptedField.__set__`: a `None` value clears storage and cache when
the field is nullable and raises `ValueError` otherwise; any other value
requires a bound service, stores `encrypt(str(value))` in the storage field
and caches the plaintext value itself. `salt` and `nonce` are the random
bytes the inner `encrypt` call draws. -/
def EncryptedField.set (f : EncryptedField) (obj : PyObj) (value : PyValue)
    (salt nonce : List Nat) : Except PyError PyObj :=
  if value = .none ∧ f.nullable then
    .ok ((obj.setattr f.storage_field .none).setattr f.private_name .none)
  else if value = .none ∧ ¬ f.nullable then
    .error (.valueError ("Field " ++ f.name ++ " cannot be None"))
  else
    match obj.getattrD "_encryption_service" with
    | .none => .error (.runtimeError "Encryption service not available for encryption")
    | .service svc => do
      let encrypted_data ← svc.encrypt salt nonce value.strFn
      Except.ok ((obj.setattr f.storage_field (.bytes encrypted_data)).setattr
        f.private_name value)
    | _ => .error (.attributeError "encrypt")

/-- Descriptor method `EncryptedField.__delete__`: clear the storage field and drop any
cached plaintext. -/
def EncryptedField.del (f : EncryptedField) (obj : PyObj) : PyObj :=
  let o1 := obj.setattr f.storage_field .none
  if o1.hasattr f.private_name then o1.delattr f.private_name else o1

/-- The default `KDFConfig()` value in an environment with argon2
available. -/
def defaultKDFConfig : KDFConfig := ⟨"argon2id", 3, 65536, 1, 32, 32⟩

def isDecryptionErrorB {α : Type} : Except PyError α → Bool
  | .error (.decryptionError _) => true
  | _ => false

def okD {α : Type} (r : Except PyError α) (d : α) : α :=
  match r with
  | .ok a => a
  | .error _ => d

/-- Tenant id `uuid("11111111-1111-1111-1111-111111111111")` in canonical
textual form, from the end-to-end scenario of the spec. -/
def tid1 : String := "11111111-1111-1111-1111-111111111111"

/-- Tenant id `uuid("22222222-2222-2222-2222-222222222222")`. -/
def tid2 : String := "22222222-2222-2222-2222-222222222222"

/-- A 32-byte runtime key of `0x42` bytes. -/
def rk42 : List Nat := List.replicate 32 0x42

/-- A 31-byte (too short) runtime key. -/
def rkShort : List Nat := List.replicate 31 0x42

/-- A 32-byte salt, standing for one draw of `os.urandom(32)`. -/
def salt0 : List Nat := List.replicate 32 0x01

/-- A 12-byte nonce, standing for one draw of `os.urandom(12)`. -/
def nonce0 : List Nat := List.replicate 12 0x02

/-- The service for `tid1` under `rk42` and the default config. -/
def svcA : TenantEncryptionService := ⟨tid1, rk42, defaultKDFConfig⟩

/-- The service for `tid2` under the same runtime key. -/
def svcB : TenantEncryptionService := ⟨tid2, rk42, defaultKDFConfig⟩

/-- A service whose config names an unsupported KDF algorithm. -/
def svcBad : TenantEncryptionService := ⟨tid1, rk42, ⟨"scrypt", 3, 65536, 1, 32, 32⟩⟩

/-- A fresh manager holding no services. -/
def mgr0 : EncryptionServiceManager := ⟨rk42, defaultKDFConfig, fun _ => none⟩

/-- An `EncryptedField` bound as `ip_address`, storing into
`ip_address_encrypted`. -/
def fieldIp : EncryptedField := ⟨"ip_address_encrypted", true, "ip_address"⟩

/-- A model instance with a bound encryption service and nothing else. -/
def objWithSvc : PyObj := ⟨[("_encryption_service", .service svcA)]⟩

/-- A model instance whose storage field holds bytes that are not a valid
blob for the bound service. -/
def objCorrupted : PyObj :=
  ⟨[("_encryption_service", .service svcA), ("ip_address_encrypted", .bytes [1, 2, 3])]⟩

/-- A non-string Python value with `str()` rendering "198.51.100.7". -/
def vOther : PyValue := .other 7 "198.51.100.7"

theorem le_foldr_max {a : Nat} {l : List Nat} (h : a ∈ l) : a ≤ l.foldr max 0 := by
  induction l with
  | nil => simp at h
  | cons x xs ih =>
    rcases List.mem_cons.mp h with h | h
    · subst h; exact Nat.le_max_left _ _
    · exact le_trans (ih h) (Nat.le_max_right _ _)

theorem natListVal_cons (B : Nat) (a : Nat) (l : List Nat) :
    natListVal B (a :: l) = natListVal B l * B + (a + 1) := rfl

theorem natListVal_inj (B : Nat) :
    ∀ l1 l2 : List Nat, (∀ a ∈ l1, a + 1 < B) → (∀ a ∈ l2, a + 1 < B) →
      natListVal B l1 = natListVal B l2 → l1 = l2 := by
  intro l1
  induction l1 with
  | nil =>
    intro l2 _ h2 hval
    cases l2 with
    | nil => rfl
    | cons a l2' =>
      exfalso
      rw [natListVal_cons] at hval
      simp [natListVal] at hval
      omega
  | cons a l1' ih =>
    intro l2 h1 h2 hval
    cases l2 with
    | nil =>
      exfalso
      rw [natListVal_cons] at hval
      simp [natListVal] at hval
    | cons b l2' =>
      rw [natListVal_cons, natListVal_cons] at hval
      have ha : a + 1 < B := h1 a (List.mem_cons_self a l1')
      have hb : b + 1 < B := h2 b (List.mem_cons_self b l2')
      have hmod : a + 1 = b + 1 := by
        have e1 : (natListVal B l1' * B + (a + 1)) % B = a + 1 := by
          rw [Nat.add_comm, Nat.add_mul_mod_self_right]
          exact Nat.mod_eq_of_lt ha
        have e2 : (natListVal B l2' * B + (b + 1)) % B = b + 1 := by
          rw [Nat.add_comm, Nat.add_mul_mod_self_right]
          exact Nat.mod_eq_of_lt hb
        rw [← e1, ← e2, hval]
      have hdiv : natListVal B l1' = natListVal B l2' := by
        have e1 : (natListVal B l1' * B + (a + 1)) / B = natListVal B l1' := by
          rw [Nat.add_comm, Nat.add_mul_div_right _ _ (by omega : 0 < B),
            Nat.div_eq_of_lt ha]
          omega
        have e2 : (natListVal B l2' * B + (b + 1)) / B = natListVal B l2' := by
          rw [Nat.add_comm, Nat.add_mul_div_right _ _ (by omega : 0 < B),
            Nat.div_eq_of_lt hb]
          omega
        rw [← e1, ← e2, hval]
      have : l1' = l2' :=
        ih l2' (fun x hx => h1 x (List.mem_cons_of_mem _ hx))
          (fun x hx => h2 x (List.mem_cons_of_mem _ hx)) hdiv
      simp [this]
      omega

theorem encodeNatList_inj : Function.Injective encodeNatList := by
  intro l1 l2 h
  unfold encodeNatList at h
  rw [Nat.pair_eq_pair] at h
  obtain ⟨hB, hval⟩ := h
  refine natListVal_inj (natListBase l1) l1 l2 ?_ ?_ ?_
  · intro a ha
    have := le_foldr_max ha
    unfold natListBase
    omega
  · intro a ha
    have := le_foldr_max ha
    unfold natListBase at hB ⊢
    omega
  · rw [hval, hB]

theorem utf8DecodeCodepoints_encodeChar (n : Nat) (hv : Nat.isValidChar n)
    (rest : List Nat) :
    utf8DecodeCodepoints (utf8EncodeChar n ++ rest) =
      (utf8DecodeCodepoints rest).map (fun l => n :: l) := by
  have hrange : n < 0xD800 ∨ (0xDFFF < n ∧ n < 0x110000) := hv
  by_cases h1 : n < 0x80
  · simp only [utf8EncodeChar, if_pos h1, List.cons_append, List.nil_append]
    rw [utf8DecodeCodepoints.eq_def]
    simp only
    rw [if_pos h1]
  · by_cases h2 : n < 0x800
    · simp only [utf8EncodeChar, if_neg h1, if_pos h2, List.cons_append,
        List.nil_append]
      rw [utf8DecodeCodepoints.eq_def]
      simp only
      have g1 : ¬ (0xC0 + n / 0x40 < 0x80) := by omega
      have g2 : ¬ (0xC0 + n / 0x40 < 0xC2) := by omega
      have g3 : 0xC0 + n / 0x40 < 0xE0 := by omega
      rw [if_neg g1, if_neg g2, if_pos g3]
      rw [utf8DecodeTail2.eq_def]
      simp only
      have g4 : 0x80 ≤ 0x80 + n % 0x40 ∧ 0x80 + n % 0x40 < 0xC0 := by omega
      rw [if_pos g4]
      have harith : (0xC0 + n / 0x40 - 0xC0) * 0x40 + (0x80 + n % 0x40 - 0x80) = n := by
        omega
      rw [harith]
    · by_cases h3 : n < 0x10000
      · simp only [utf8EncodeChar, if_neg h1, if_neg h2, if_pos h3,
          List.cons_append, List.nil_append]
        rw [utf8DecodeCodepoints.eq_def]
        simp only
        have g1 : ¬ (0xE0 + n / 0x1000 < 0x80) := by omega
        have g2 : ¬ (0xE0 + n / 0x1000 < 0xC2) := by omega
        have g3 : ¬ (0xE0 + n / 0x1000 < 0xE0) := by omega
        have g4 : 0xE0 + n / 0x1000 < 0xF0 := by omega
        rw [if_neg g1, if_neg g2, if_neg g3, if_pos g4]
        rw [utf8DecodeTail3.eq_def]
        simp only
        have g5 : 0x80 ≤ 0x80 + n / 0x40 % 0x40 ∧ 0x80 + n / 0x40 % 0x40 < 0xC0 ∧
            0x80 ≤ 0x80 + n % 0x40 ∧ 0x80 + n % 0x40 < 0xC0 := by omega
        rw [if_pos g5]
        have harith : (0xE0 + n / 0x1000 - 0xE0) * 0x1000 +
            (0x80 + n / 0x40 % 0x40 - 0x80) * 0x40 + (0x80 + n % 0x40 - 0x80) = n := by
          omega
        rw [harith]
        have g6 : ¬ (n < 0x800 ∨ (0xD800 ≤ n ∧ n < 0xE000)) := by omega
        rw [if_neg g6]
      · have h4 : n < 0x110000 := by omega
        simp only [utf8EncodeChar, if_neg h1, if_neg h2, if_neg h3,
          List.cons_append, List.nil_append]
        rw [utf8DecodeCodepoints.eq_def]
        simp only
        have g1 : ¬ (0xF0 + n / 0x40000 < 0x80) := by omega
        have g2 : ¬ (0xF0 + n / 0x40000 < 0xC2) := by omega
        have g3 : ¬ (0xF0 + n / 0x40000 < 0xE0) := by omega
        have g4 : ¬ (0xF0 + n / 0x40000 < 0xF0) := by omega
        have g5 : 0xF0 + n / 0x40000 < 0xF5 := by omega
        rw [if_neg g1, if_neg g2, if_neg g3, if_neg g4, if_pos g5]
        rw [utf8DecodeTail4.eq_def]
        simp only
        have g6 : 0x80 ≤ 0x80 + n / 0x1000 % 0x40 ∧ 0x80 + n / 0x1000 % 0x40 < 0xC0 ∧
            0x80 ≤ 0x80 + n / 0x40 % 0x40 ∧ 0x80 + n / 0x40 % 0x40 < 0xC0 ∧
            0x80 ≤ 0x80 + n % 0x40 ∧ 0x80 + n % 0x40 < 0xC0 := by omega
        rw [if_pos g6]
        have harith : (0xF0 + n / 0x40000 - 0xF0) * 0x40000 +
            (0x80 + n / 0x1000 % 0x40 - 0x80) * 0x1000 +
            (0x80 + n / 0x40 % 0x40 - 0x80) * 0x40 + (0x80 + n % 0x40 - 0x80) = n := by
          omega
        rw [harith]
        have g7 : ¬ (n < 0x10000 ∨ 0x110000 ≤ n) := by omega
        rw [if_neg g7]

theorem char_toNat_isValidChar (c : Char) : Nat.isValidChar c.toNat := by
  have h := c.valid
  simpa [UInt32.isValidChar, Char.toNat] using h

theorem utf8DecodeCodepoints_encode_chars (cs : List Char) :
    utf8DecodeCodepoints ((cs.map (fun c => utf8EncodeChar c.toNat)).flatten) =
      some (cs.map Char.toNat) := by
  induction cs with
  | nil => rfl
  | cons c cs ih =>
    simp only [List.map_cons, List.flatten_cons]
    rw [utf8DecodeCodepoints_encodeChar c.toNat (char_toNat_isValidChar c), ih]
    rfl

theorem map_ofNat_toNat (cs : List Char) : (cs.map Char.toNat).map Char.ofNat = cs := by
  induction cs with
  | nil => rfl
  | cons c cs ih => simp [Char.ofNat_toNat, ih]

/-- UTF-8 decoding inverts UTF-8 encoding: the round trip behind
`decrypt(encrypt(s)) = s`. -/
theorem utf8Decode_utf8Encode (s : String) : utf8Decode (utf8Encode s) = some s := by
  unfold utf8Decode utf8Encode
  rw [utf8DecodeCodepoints_encode_chars s.data]
  show some (String.mk ((s.data.map Char.toNat).map Char.ofNat)) = some s
  rw [map_ofNat_toNat]

theorem utf8Encode_injective : Function.Injective utf8Encode := by
  intro s1 s2 h
  have h1 := utf8Decode_utf8Encode s1
  rw [h, utf8Decode_utf8Encode s2] at h1
  exact (Option.some_inj.mp h1).symm

theorem getAttrOpt_setattr_self (o : PyObj) (n : String) (v : PyValue) :
    (o.setattr n v).getAttrOpt n = some v := by
  unfold PyObj.setattr PyObj.getAttrOpt
  cases o with
  | mk attrs =>
    simp only
    induction attrs with
    | nil =>
      simp only [updateAssoc]
      rw [List.find?_cons_of_pos _ (by simp)]
      rfl
    | cons p rest ih =>
      cases p with
      | mk k w =>
        by_cases hk : k = n
        · subst hk
          simp only [updateAssoc, eq_self_iff_true, if_true]
          rw [List.find?_cons_of_pos _ (by simp)]
          rfl
        · simp only [updateAssoc, if_neg hk]
          rw [List.find?_cons_of_neg _ (by simp [hk])]
          exact ih

theorem getAttrOpt_setattr_ne (o : PyObj) (n m : String) (v : PyValue)
    (h : n ≠ m) : (o.setattr m v).getAttrOpt n = o.getAttrOpt n := by
  unfold PyObj.setattr PyObj.getAttrOpt
  cases o with
  | mk attrs =>
    simp only
    induction attrs with
    | nil =>
      simp only [updateAssoc]
      rw [List.find?_cons_of_neg _ (by simp [Ne.symm h])]
    | cons p rest ih =>
      cases p with
      | mk k w =>
        by_cases hk : k = m
        · subst hk
          simp only [updateAssoc, eq_self_iff_true, if_true]
          rw [List.find?_cons_of_neg _ (by simp [Ne.symm h]),
            List.find?_cons_of_neg _ (by simp [Ne.symm h])]
        · simp only [updateAssoc, if_neg hk]
          by_cases hkn : k = n
          · subst hkn
            rw [List.find?_cons_of_pos _ (by simp), List.find?_cons_of_pos _ (by simp)]
          · rw [List.find?_cons_of_neg _ (by simp [hkn]),
              List.find?_cons_of_neg _ (by simp [hkn])]
            exact ih

theorem hasattr_setattr_self (o : PyObj) (n : String) (v : PyValue) :
    (o.setattr n v).hasattr n = true := by
  unfold PyObj.hasattr
  rw [getAttrOpt_setattr_self]
  rfl

theorem getattrD_setattr_self (o : PyObj) (n : String) (v : PyValue) :
    (o.setattr n v).getattrD n = v := by
  unfold PyObj.getattrD
  rw [getAttrOpt_setattr_self]
  rfl

theorem getattrD_setattr_ne (o : PyObj) (n m : String) (v : PyValue)
    (h : n ≠ m) : (o.setattr m v).getattrD n = o.getattrD n := by
  unfold PyObj.getattrD
  rw [getAttrOpt_setattr_ne o n m v h]

theorem hash_secret_raw_length (secret salt : List Nat)
    (time_cost memory_cost parallelism hash_len : Nat) :
    (hash_secret_raw secret salt time_cost memory_cost parallelism hash_len).length =
      hash_len := by
  unfold hash_secret_raw
  split
  · simp [*]
  · simp only [List.length_cons, List.length_replicate]
    omega

theorem pbkdf2_derive_length (key_material salt : List Nat) (length iterations : Nat) :
    (pbkdf2_derive key_material salt length iterations).length = length := by
  unfold pbkdf2_derive
  split
  · simp [*]
  · simp only [List.length_cons, List.length_replicate]
    omega

theorem aesgcm_tag_length (key nonce pt : List Nat) :
    (aesgcm_tag key nonce pt).length = GCM_TAG_LENGTH := by
  simp [aesgcm_tag, GCM_TAG_LENGTH]

theorem aesgcm_decrypt_encrypt (key nonce pt : List Nat) :
    aesgcm_decrypt key nonce (aesgcm_encrypt key nonce pt) = some pt := by
  unfold aesgcm_decrypt aesgcm_encrypt
  have hlen : (pt ++ aesgcm_tag key nonce pt).length = pt.length + GCM_TAG_LENGTH := by
    simp [aesgcm_tag_length]
  rw [hlen]
  have h1 : ¬ (pt.length + GCM_TAG_LENGTH < GCM_TAG_LENGTH) := by
    unfold GCM_TAG_LENGTH
    omega
  rw [if_neg h1]
  have h2 : pt.length + GCM_TAG_LENGTH - GCM_TAG_LENGTH = pt.length := by omega
  rw [h2, List.take_left' rfl, List.drop_left' rfl, if_pos rfl]

theorem aesgcm_tag_ne_of_key_ne (key1 key2 nonce pt : List Nat)
    (h : key1 ≠ key2) : aesgcm_tag key1 nonce pt ≠ aesgcm_tag key2 nonce pt := by
  intro heq
  unfold aesgcm_tag at heq
  have hhead : Nat.pair (encodeNatList key1)
      (Nat.pair (encodeNatList nonce) (encodeNatList pt)) =
      Nat.pair (encodeNatList key2)
      (Nat.pair (encodeNatList nonce) (encodeNatList pt)) := by
    exact (List.cons.injEq _ _ _ _).mp heq |>.1
  rw [Nat.pair_eq_pair] at hhead
  exact h (encodeNatList_inj hhead.1)

theorem aesgcm_decrypt_wrong_tag (key1 key2 nonce pt : List Nat)
    (h : key1 ≠ key2) :
    aesgcm_decrypt key1 nonce (aesgcm_encrypt key2 nonce pt) = none := by
  unfold aesgcm_decrypt aesgcm_encrypt
  have hlen : (pt ++ aesgcm_tag key2 nonce pt).length = pt.length + GCM_TAG_LENGTH := by
    simp [aesgcm_tag_length]
  rw [hlen]
  have h1 : ¬ (pt.length + GCM_TAG_LENGTH < GCM_TAG_LENGTH) := by
    unfold GCM_TAG_LENGTH
    omega
  rw [if_neg h1]
  have h2 : pt.length + GCM_TAG_LENGTH - GCM_TAG_LENGTH = pt.length := by omega
  rw [h2, List.take_left' rfl, List.drop_left' rfl]
  rw [if_neg (aesgcm_tag_ne_of_key_ne key2 key1 nonce pt (Ne.symm h))]

theorem hash_secret_raw_ne (secret1 secret2 salt : List Nat)
    (time_cost memory_cost parallelism hash_len : Nat)
    (hs : secret1 ≠ secret2) (hl : hash_len ≠ 0) :
    hash_secret_raw secret1 salt time_cost memory_cost parallelism hash_len ≠
      hash_secret_raw secret2 salt time_cost memory_cost parallelism hash_len := by
  intro heq
  unfold hash_secret_raw at heq
  rw [if_neg hl, if_neg hl] at heq
  have hhead := (List.cons.injEq _ _ _ _).mp heq |>.1
  rw [Nat.pair_eq_pair] at hhead
  have := hhead.2
  rw [Nat.pair_eq_pair] at this
  have := this.1
  rw [Nat.pair_eq_pair] at this
  exact hs (encodeNatList_inj this.1)

theorem pbkdf2_derive_ne (km1 km2 salt : List Nat) (length iterations : Nat)
    (hs : km1 ≠ km2) (hl : length ≠ 0) :
    pbkdf2_derive km1 salt length iterations ≠ pbkdf2_derive km2 salt length iterations := by
  intro heq
  unfold pbkdf2_derive at heq
  rw [if_neg hl, if_neg hl] at heq
  have hhead := (List.cons.injEq _ _ _ _).mp heq |>.1
  rw [Nat.pair_eq_pair] at hhead
  have := hhead.2
  rw [Nat.pair_eq_pair] at this
  have := this.1
  rw [Nat.pair_eq_pair] at this
  exact hs (encodeNatList_inj this.1)

theorem KDFConfig.default_eq : KDFConfig.default = .ok defaultKDFConfig := by
  unfold KDFConfig.default KDFConfig.make HAS_ARGON2 defaultKDFConfig
  simp

theorem make_some_ok (tid : String) (rk : List Nat) (cfg : KDFConfig)
    (svc : TenantEncryptionService)
    (h : TenantEncryptionService.make tid rk (some cfg) = .ok svc) :
    svc = ⟨tid, rk, cfg⟩ ∧ MIN_RUNTIME_KEY_LENGTH ≤ rk.length := by
  unfold TenantEncryptionService.make at h
  simp only [bind, Except.bind] at h
  by_cases hlen : rk.length < MIN_RUNTIME_KEY_LENGTH
  · rw [if_pos hlen] at h
    exact absurd h (by simp)
  · rw [if_neg hlen] at h
    exact ⟨(Except.ok.injEq _ _).mp h |>.symm, by omega⟩

theorem make_none_ok (tid : String) (rk : List Nat) (svc : TenantEncryptionService)
    (h : TenantEncryptionService.make tid rk none = .ok svc) :
    svc = ⟨tid, rk, defaultKDFConfig⟩ ∧ MIN_RUNTIME_KEY_LENGTH ≤ rk.length := by
  unfold TenantEncryptionService.make at h
  rw [KDFConfig.default_eq] at h
  simp only [bind, Except.bind] at h
  by_cases hlen : rk.length < MIN_RUNTIME_KEY_LENGTH
  · rw [if_pos hlen] at h
    exact absurd h (by simp)
  · rw [if_neg hlen] at h
    exact ⟨(Except.ok.injEq _ _).mp h |>.symm, by omega⟩

theorem make_some_of_long (tid : String) (rk : List Nat) (cfg : KDFConfig)
    (h : MIN_RUNTIME_KEY_LENGTH ≤ rk.length) :
    TenantEncryptionService.make tid rk (some cfg) = .ok ⟨tid, rk, cfg⟩ := by
  unfold TenantEncryptionService.make
  simp only [bind, Except.bind]
  rw [if_neg (by omega)]

theorem make_none_of_long (tid : String) (rk : List Nat)
    (h : MIN_RUNTIME_KEY_LENGTH ≤ rk.length) :
    TenantEncryptionService.make tid rk none = .ok ⟨tid, rk, defaultKDFConfig⟩ := by
  unfold TenantEncryptionService.make
  rw [KDFConfig.default_eq]
  simp only [bind, Except.bind]
  rw [if_neg (by omega)]

theorem derive_key_argon2 (svc : TenantEncryptionService) (salt : List Nat)
    (h : svc.kdf_config.algorithm = "argon2id") :
    svc._derive_key salt = .ok (hash_secret_raw
      (utf8Encode svc.tenant_id ++ svc.runtime_key) salt
      svc.kdf_config.time_cost svc.kdf_config.memory_cost
      svc.kdf_config.parallelism svc.kdf_config.key_length) := by
  unfold TenantEncryptionService._derive_key
  rw [if_pos h]

theorem derive_key_pbkdf2 (svc : TenantEncryptionService) (salt : List Nat)
    (h : svc.kdf_config.algorithm = "pbkdf2") :
    svc._derive_key salt = .ok (pbkdf2_derive
      (utf8Encode svc.tenant_id ++ svc.runtime_key) salt
      svc.kdf_config.key_length PBKDF2_ITERATIONS) := by
  unfold TenantEncryptionService._derive_key
  rw [if_neg (by rw [h]; decide), if_pos h]

theorem derive_key_ok (svc : TenantEncryptionService) (salt : List Nat)
    (halg : svc.kdf_config.algorithm = "argon2id" ∨
      svc.kdf_config.algorithm = "pbkdf2") :
    ∃ key, svc._derive_key salt = .ok key ∧
      key.length = svc.kdf_config.key_length := by
  rcases halg with h | h
  · exact ⟨_, derive_key_argon2 svc salt h, hash_secret_raw_length _ _ _ _ _ _⟩
  · exact ⟨_, derive_key_pbkdf2 svc salt h, pbkdf2_derive_length _ _ _ _⟩

theorem AESGCM_new_ok (key : List Nat)
    (h : key.length = 16 ∨ key.length = 24 ∨ key.length = 32) :
    AESGCM_new key = .ok key := by
  unfold AESGCM_new
  rw [if_pos h]

theorem decrypt_empty (svc : TenantEncryptionService) :
    svc.decrypt [] = .ok "" := rfl

theorem encrypt_empty (svc : TenantEncryptionService) (salt nonce : List Nat) :
    svc.encrypt salt nonce "" = .ok [] := rfl

theorem decrypt_of_attempt_ok (svc : TenantEncryptionService) (data : List Nat)
    (s : String) (hne : data ≠ []) (h : svc.decryptAttempt data = .ok s) :
    svc.decrypt data = .ok s := by
  unfold TenantEncryptionService.decrypt
  rw [if_neg hne, h]

theorem decrypt_of_attempt_error (svc : TenantEncryptionService) (data : List Nat)
    (e : PyError) (hne : data ≠ []) (h : svc.decryptAttempt data = .error e) :
    svc.decrypt data =
      .error (.decryptionError ("Failed to decrypt data: " ++ e.message)) := by
  unfold TenantEncryptionService.decrypt
  rw [if_neg hne, h]

theorem exceptBind_ok {α β : Type} (a : α) (f : α → Except PyError β) :
    Except.bind (Except.ok a) f = f a := rfl

theorem decryptAttempt_unfold (svc : TenantEncryptionService) (data : List Nat) :
    svc.decryptAttempt data =
      Except.bind (svc._derive_key (data.take svc.kdf_config.salt_length))
        (fun key => Except.bind (AESGCM_new key) (fun aesgcm =>
          match aesgcm_decrypt aesgcm
              ((data.drop svc.kdf_config.salt_length).take GCM_NONCE_LENGTH)
              (data.drop (svc.kdf_config.salt_length + GCM_NONCE_LENGTH)) with
          | none => Except.error .invalidTag
          | some plaintext_bytes =>
            match utf8Decode plaintext_bytes with
            | none => Except.error .unicodeDecodeError
            | some s => Except.ok s)) := rfl

theorem encrypt_eq (svc : TenantEncryptionService) (salt nonce : List Nat)
    (s : String) (key : List Nat) (hs : s ≠ "")
    (hkey : svc._derive_key salt = .ok key)
    (haes : AESGCM_new key = .ok key) :
    svc.encrypt salt nonce s =
      .ok (salt ++ nonce ++ aesgcm_encrypt key nonce (utf8Encode s)) := by
  unfold TenantEncryptionService.encrypt
  rw [if_neg hs]
  simp only [bind, Except.bind, hkey, haes]

theorem blob_append_ne_nil (salt nonce key pt : List Nat) :
    salt ++ nonce ++ aesgcm_encrypt key nonce pt ≠ [] := by
  intro h
  have hl := congrArg List.length h
  simp only [List.length_append, List.length_nil, aesgcm_encrypt,
    aesgcm_tag_length] at hl
  simp [GCM_TAG_LENGTH] at hl

theorem decryptAttempt_roundtrip (svc : TenantEncryptionService)
    (salt nonce key : List Nat) (s : String)
    (hsalt : salt.length = svc.kdf_config.salt_length)
    (hnonce : nonce.length = GCM_NONCE_LENGTH)
    (hkey : svc._derive_key salt = .ok key)
    (haes : AESGCM_new key = .ok key) :
    svc.decryptAttempt (salt ++ nonce ++ aesgcm_encrypt key nonce (utf8Encode s)) =
      .ok s := by
  have h1 : (salt ++ nonce ++ aesgcm_encrypt key nonce (utf8Encode s)).take
      svc.kdf_config.salt_length = salt := by
    rw [List.append_assoc]
    exact List.take_left' hsalt
  have h2 : ((salt ++ nonce ++ aesgcm_encrypt key nonce (utf8Encode s)).drop
      svc.kdf_config.salt_length).take GCM_NONCE_LENGTH = nonce := by
    rw [List.append_assoc, List.drop_left' hsalt, List.take_left' hnonce]
  have h3 : (salt ++ nonce ++ aesgcm_encrypt key nonce (utf8Encode s)).drop
      (svc.kdf_config.salt_length + GCM_NONCE_LENGTH) =
      aesgcm_encrypt key nonce (utf8Encode s) :=
    List.drop_left' (by simp [List.length_append, hsalt, hnonce])
  rw [decryptAttempt_unfold]
  simp only [h1, h2, h3]
  rw [hkey, exceptBind_ok, haes, exceptBind_ok, aesgcm_decrypt_encrypt]
  simp only [utf8Decode_utf8Encode]

/-- Round trip for any service with a supported KDF algorithm and a valid
AES key length, given salt and nonce of the lengths `encrypt` draws. -/
theorem roundtrip_general (svc : TenantEncryptionService) (salt nonce : List Nat)
    (s : String)
    (halg : svc.kdf_config.algorithm = "argon2id" ∨
      svc.kdf_config.algorithm = "pbkdf2")
    (hkl : svc.kdf_config.key_length = 16 ∨ svc.kdf_config.key_length = 24 ∨
      svc.kdf_config.key_length = 32)
    (hsalt : salt.length = svc.kdf_config.salt_length)
    (hnonce : nonce.length = GCM_NONCE_LENGTH) :
    ∃ blob, svc.encrypt salt nonce s = .ok blob ∧ svc.decrypt blob = .ok s := by
  by_cases hs : s = ""
  · subst hs
    exact ⟨[], encrypt_empty svc salt nonce, decrypt_empty svc⟩
  · obtain ⟨key, hkey, hklen⟩ := derive_key_ok svc salt halg
    have haes : AESGCM_new key = .ok key := AESGCM_new_ok key (by omega)
    refine ⟨salt ++ nonce ++ aesgcm_encrypt key nonce (utf8Encode s),
      encrypt_eq svc salt nonce s key hs hkey haes, ?_⟩
    exact decrypt_of_attempt_ok svc _ s (blob_append_ne_nil salt nonce key _)
      (decryptAttempt_roundtrip svc salt nonce key s hsalt hnonce hkey haes)

theorem decryptAttempt_wrong_key (svc : TenantEncryptionService)
    (salt nonce key1 key2 pt : List Nat)
    (hsalt : salt.length = svc.kdf_config.salt_length)
    (hnonce : nonce.length = GCM_NONCE_LENGTH)
    (hkey : svc._derive_key salt = .ok key1)
    (haes : AESGCM_new key1 = .ok key1)
    (hne : key1 ≠ key2) :
    svc.decryptAttempt (salt ++ nonce ++ aesgcm_encrypt key2 nonce pt) =
      .error .invalidTag := by
  have h1 : (salt ++ nonce ++ aesgcm_encrypt key2 nonce pt).take
      svc.kdf_config.salt_length = salt := by
    rw [List.append_assoc]
    exact List.take_left' hsalt
  have h2 : ((salt ++ nonce ++ aesgcm_encrypt key2 nonce pt).drop
      svc.kdf_config.salt_length).take GCM_NONCE_LENGTH = nonce := by
    rw [List.append_assoc, List.drop_left' hsalt, List.take_left' hnonce]
  have h3 : (salt ++ nonce ++ aesgcm_encrypt key2 nonce pt).drop
      (svc.kdf_config.salt_length + GCM_NONCE_LENGTH) =
      aesgcm_encrypt key2 nonce pt :=
    List.drop_left' (by simp [List.length_append, hsalt, hnonce])
  rw [decryptAttempt_unfold]
  simp only [h1, h2, h3]
  rw [hkey, exceptBind_ok, haes, exceptBind_ok,
    aesgcm_decrypt_wrong_tag key1 key2 nonce pt hne]

theorem exceptBind_err {β : Type} (e : PyError) (f : String → Except PyError β) :
    Except.bind (Except.error e : Except PyError String) f = .error e := rfl

theorem exceptBindL_err {α β : Type} (e : PyError) (f : α → Except PyError β) :
    Except.bind (Except.error e : Except PyError α) f = .error e := rfl

theorem key_material_ne (t1 t2 : String) (rk : List Nat) (ht : t1 ≠ t2) :
    utf8Encode t1 ++ rk ≠ utf8Encode t2 ++ rk := fun h =>
  ht (utf8Encode_injective (List.append_cancel_right h))

theorem derive_keys_ne (cfg : KDFConfig) (t1 t2 : String) (rk salt : List Nat)
    (key1 key2 : List Nat) (ht : t1 ≠ t2) (hkl : cfg.key_length ≠ 0)
    (halg : cfg.algorithm = "argon2id" ∨ cfg.algorithm = "pbkdf2")
    (h1 : (⟨t1, rk, cfg⟩ : TenantEncryptionService)._derive_key salt = .ok key1)
    (h2 : (⟨t2, rk, cfg⟩ : TenantEncryptionService)._derive_key salt = .ok key2) :
    key1 ≠ key2 := by
  have hkm : utf8Encode t1 ++ rk ≠ utf8Encode t2 ++ rk := key_material_ne t1 t2 rk ht
  rcases halg with h | h
  · rw [derive_key_argon2 _ salt h] at h1 h2
    have e1 := (Except.ok.injEq _ _).mp h1
    have e2 := (Except.ok.injEq _ _).mp h2
    rw [← e1, ← e2]
    exact hash_secret_raw_ne _ _ _ _ _ _ _ hkm hkl
  · rw [derive_key_pbkdf2 _ salt h] at h1 h2
    have e1 := (Except.ok.injEq _ _).mp h1
    have e2 := (Except.ok.injEq _ _).mp h2
    rw [← e1, ← e2]
    exact pbkdf2_derive_ne _ _ _ _ _ hkm hkl

theorem aesgcm_decrypt_nil (key nonce : List Nat) :
    aesgcm_decrypt key nonce [] = none := rfl

theorem decryptAttempt_short (svc : TenantEncryptionService) (data : List Nat)
    (hlen : data.length < svc.kdf_config.salt_length + GCM_NONCE_LENGTH) :
    ∃ e, svc.decryptAttempt data = .error e := by
  rw [decryptAttempt_unfold]
  have hct : data.drop (svc.kdf_config.salt_length + GCM_NONCE_LENGTH) = [] :=
    List.drop_eq_nil_of_le (by omega)
  rw [hct]
  cases hd : svc._derive_key (data.take svc.kdf_config.salt_length) with
  | error e => exact ⟨e, by rw [exceptBindL_err]⟩
  | ok key =>
    rw [exceptBind_ok]
    cases ha : AESGCM_new key with
    | error e => exact ⟨e, by rw [exceptBindL_err]⟩
    | ok aes =>
      rw [exceptBind_ok, aesgcm_decrypt_nil]
      exact ⟨.invalidTag, rfl⟩

theorem derive_key_unsupported (svc : TenantEncryptionService) (salt : List Nat)
    (h1 : svc.kdf_config.algorithm ≠ "argon2id")
    (h2 : svc.kdf_config.algorithm ≠ "pbkdf2") :
    svc._derive_key salt =
      .error (.encryptionConfigError ("Unsupported KDF: " ++ svc.kdf_config.algorithm)) := by
  unfold TenantEncryptionService._derive_key
  rw [if_neg h1, if_neg h2]

theorem set_eq (f : EncryptedField) (obj : PyObj) (v : PyValue)
    (salt nonce : List Nat) (svc : TenantEncryptionService) (blob : List Nat)
    (hsvc : obj.getattrD "_encryption_service" = .service svc)
    (hv : v ≠ .none)
    (henc : svc.encrypt salt nonce v.strFn = .ok blob) :
    f.set obj v salt nonce =
      .ok ((obj.setattr f.storage_field (.bytes blob)).setattr f.private_name v) := by
  unfold EncryptedField.set
  rw [if_neg (by simp [hv]), if_neg (by simp [hv]), hsvc]
  simp only [henc, exceptBind_ok, bind, Except.bind]

theorem get_cached (f : EncryptedField) (obj : PyObj)
    (hcache : obj.hasattr f.private_name = true) :
    f.get obj = .ok (obj.getattrD f.private_name, obj) := by
  unfold EncryptedField.get
  rw [hcache]
  rfl

/-- C1: for every `TenantEncryptionService` constructed from a tenant id and
a runtime key of at least 32 bytes (the construction hypothesis), and for
every string `s`, the empty string included, `decrypt(encrypt(s))` returns
`s`. The `salt`/`nonce` arguments are the bytes `encrypt` draws from
`os.urandom`, of the lengths the code requests. -/
theorem C1_round_trip (tid : String) (rk : List Nat)
    (svc : TenantEncryptionService) (salt nonce : List Nat) (s : String)
    (hmk : TenantEncryptionService.make tid rk none = .ok svc)
    (hsalt : salt.length = svc.kdf_config.salt_length)
    (hnonce : nonce.length = GCM_NONCE_LENGTH) :
    ∃ blob, svc.encrypt salt nonce s = .ok blob ∧ svc.decrypt blob = .ok s := by
  obtain ⟨hsvc, hlen⟩ := make_none_ok tid rk svc hmk
  subst hsvc
  exact roundtrip_general _ salt nonce s (Or.inl rfl) (Or.inr (Or.inr rfl))
    hsalt hnonce

theorem C1_round_trip_witness :
    (svcA.encrypt salt0 nonce0 "10.0.0.1").isOk = true ∧
    svcA.decrypt (okD (svcA.encrypt salt0 nonce0 "10.0.0.1") []) = .ok "10.0.0.1" := by
  obtain ⟨blob, henc, hdec⟩ := C1_round_trip tid1 rk42 svcA salt0 nonce0 "10.0.0.1"
    (by decide) (by decide) (by decide)
  rw [henc]
  exact ⟨rfl, hdec⟩

/-- C2: two services for distinct tenant ids built over the same (≥32-byte)
runtime key and default config: decrypting under the first a blob encrypted
under the second raises `DecryptionError`, deterministically — the ideal
KDF/AEAD model realises the exactness the spec attributes to the real
primitives. -/
theorem C2_tenant_isolation (t1 t2 : String) (rk : List Nat)
    (svcT1 svcT2 : TenantEncryptionService) (salt nonce : List Nat) (s : String)
    (ht : t1 ≠ t2)
    (hmk1 : TenantEncryptionService.make t1 rk none = .ok svcT1)
    (hmk2 : TenantEncryptionService.make t2 rk none = .ok svcT2)
    (hs : s ≠ "")
    (hsalt : salt.length = svcT2.kdf_config.salt_length)
    (hnonce : nonce.length = GCM_NONCE_LENGTH) :
    ∃ blob msg, svcT2.encrypt salt nonce s = .ok blob ∧
      svcT1.decrypt blob = .error (.decryptionError msg) := by
  obtain ⟨h1, _⟩ := make_none_ok t1 rk svcT1 hmk1
  obtain ⟨h2, _⟩ := make_none_ok t2 rk svcT2 hmk2
  subst h1
  subst h2
  obtain ⟨key2, hkey2, hkl2⟩ :=
    derive_key_ok (⟨t2, rk, defaultKDFConfig⟩ : TenantEncryptionService) salt (Or.inl rfl)
  have haes2 : AESGCM_new key2 = .ok key2 :=
    AESGCM_new_ok key2 (by rw [hkl2]; right; right; rfl)
  obtain ⟨key1, hkey1, hkl1⟩ :=
    derive_key_ok (⟨t1, rk, defaultKDFConfig⟩ : TenantEncryptionService) salt (Or.inl rfl)
  have haes1 : AESGCM_new key1 = .ok key1 :=
    AESGCM_new_ok key1 (by rw [hkl1]; right; right; rfl)
  have hne : key1 ≠ key2 :=
    derive_keys_ne defaultKDFConfig t1 t2 rk salt key1 key2 ht (by decide)
      (Or.inl rfl) hkey1 hkey2
  have hdec := decrypt_of_attempt_error _ _ _
    (blob_append_ne_nil salt nonce key2 (utf8Encode s))
    (decryptAttempt_wrong_key (⟨t1, rk, defaultKDFConfig⟩ : TenantEncryptionService)
      salt nonce key1 key2 (utf8Encode s) hsalt hnonce hkey1 haes1 hne)
  exact ⟨_, _, encrypt_eq _ salt nonce s key2 hs hkey2 haes2, hdec⟩

theorem C2_tenant_isolation_witness :
    (svcB.encrypt salt0 nonce0 "10.0.0.1").isOk = true ∧
    isDecryptionErrorB (svcA.decrypt (okD (svcB.encrypt salt0 nonce0 "10.0.0.1") []))
      = true := by
  obtain ⟨blob, msg, henc, hdec⟩ := C2_tenant_isolation tid1 tid2 rk42 svcA svcB
    salt0 nonce0 "10.0.0.1" (by decide) (by decide) (by decide) (by decide)
    (by decide) (by decide)
  rw [henc]
  refine ⟨rfl, ?_⟩
  show isDecryptionErrorB (svcA.decrypt blob) = true
  rw [hdec]
  rfl

/-- C3 (amended): for every non-empty `s`, `encrypt` returns
`salt ‖ nonce ‖ (ciphertext + 16-byte tag)` of total length
`salt_length + 12 + |utf8(s)| + 16`. (The claim's concrete figure of 76
bytes for "10.0.0.1" contradicts this formula: the correct total is
32 + 12 + 8 + 16 = 68.) -/
theorem C3_blob_layout (svc : TenantEncryptionService) (salt nonce : List Nat)
    (s : String)
    (halg : svc.kdf_config.algorithm = "argon2id" ∨
      svc.kdf_config.algorithm = "pbkdf2")
    (hkl : svc.kdf_config.key_length = 16 ∨ svc.kdf_config.key_length = 24 ∨
      svc.kdf_config.key_length = 32)
    (hs : s ≠ "")
    (hsalt : salt.length = svc.kdf_config.salt_length)
    (hnonce : nonce.length = GCM_NONCE_LENGTH) :
    ∃ ct, svc.encrypt salt nonce s = .ok (salt ++ nonce ++ ct) ∧
      ct.length = (utf8Encode s).length + GCM_TAG_LENGTH ∧
      (salt ++ nonce ++ ct).length = svc.kdf_config.salt_length +
        GCM_NONCE_LENGTH + (utf8Encode s).length + GCM_TAG_LENGTH := by
  obtain ⟨key, hkey, hklen⟩ := derive_key_ok svc salt halg
  have haes : AESGCM_new key = .ok key := AESGCM_new_ok key (by omega)
  refine ⟨aesgcm_encrypt key nonce (utf8Encode s),
    encrypt_eq svc salt nonce s key hs hkey haes, ?_, ?_⟩
  · simp [aesgcm_encrypt, aesgcm_tag_length]
  · simp only [List.length_append, aesgcm_encrypt, List.length_append,
      aesgcm_tag_length, hsalt, hnonce]
    omega

theorem C3_blob_layout_witness :
    (svcA.encrypt salt0 nonce0 "10.0.0.1").isOk = true ∧
    (okD (svcA.encrypt salt0 nonce0 "10.0.0.1") []).length = 68 := by
  obtain ⟨ct, henc, hct, hlen⟩ := C3_blob_layout svcA salt0 nonce0 "10.0.0.1"
    (Or.inl rfl) (Or.inr (Or.inr rfl)) (by decide) (by decide) (by decide)
  rw [henc]
  refine ⟨rfl, ?_⟩
  show (salt0 ++ nonce0 ++ ct).length = 68
  rw [hlen]
  decide

/-- C3 counterexample: the blob encrypting "10.0.0.1" under the default
configuration has 68 bytes, not the 76 the claim asserts (the claim's own
formula gives 32 + 12 + 8 + 16 = 68). -/
theorem C3_blob_length_counterexample :
    (svcA.encrypt salt0 nonce0 "10.0.0.1").isOk = true ∧
    (okD (svcA.encrypt salt0 nonce0 "10.0.0.1") []).length = 68 ∧
    ¬ (okD (svcA.encrypt salt0 nonce0 "10.0.0.1") []).length = 76 := by
  refine ⟨by decide, by decide, by decide⟩

/-- C4: encrypt of the empty string short-circuits to the empty byte
sequence (the AEAD branch of `encrypt` is never entered), and decrypt of
the empty byte sequence short-circuits to the empty string. -/
theorem C4_empty_string (svc : TenantEncryptionService) (salt nonce : List Nat) :
    svc.encrypt salt nonce "" = .ok [] ∧ svc.decrypt [] = .ok "" :=
  ⟨encrypt_empty svc salt nonce, decrypt_empty svc⟩

/-- C5: for every non-empty blob strictly shorter than
`salt_length + 12`, `decrypt` raises `DecryptionError` — and nothing
else — whatever the configured algorithm. -/
theorem C5_short_blob (svc : TenantEncryptionService) (data : List Nat)
    (hne : data ≠ [])
    (hlen : data.length < svc.kdf_config.salt_length + GCM_NONCE_LENGTH) :
    ∃ msg, svc.decrypt data = .error (.decryptionError msg) := by
  obtain ⟨e, he⟩ := decryptAttempt_short svc data hlen
  exact ⟨_, decrypt_of_attempt_error svc data e hne he⟩

theorem C5_short_blob_witness :
    isDecryptionErrorB (svcA.decrypt [1, 2, 3]) = true := by
  obtain ⟨msg, h⟩ := C5_short_blob svcA [1, 2, 3] (by decide) (by decide)
  rw [h]
  rfl

/-- C6: constructing a `TenantEncryptionService` with a runtime key shorter
than 32 bytes raises `EncryptionConfigError`; with a key of 32 bytes or
more (argon2 being available for the default config) construction
succeeds. -/
theorem C6_short_key_rejection (tid : String) (rk : List Nat)
    (kdf_config : Option KDFConfig) :
    (rk.length < MIN_RUNTIME_KEY_LENGTH →
      ∃ msg, TenantEncryptionService.make tid rk kdf_config =
        .error (.encryptionConfigError msg)) ∧
    (MIN_RUNTIME_KEY_LENGTH ≤ rk.length →
      (TenantEncryptionService.make tid rk kdf_config).isOk = true) := by
  constructor
  · intro hshort
    refine ⟨"Runtime key must be at least 32 bytes", ?_⟩
    cases kdf_config with
    | some c =>
      unfold TenantEncryptionService.make
      simp only [bind, Except.bind]
      rw [if_pos hshort]
    | none =>
      unfold TenantEncryptionService.make
      rw [KDFConfig.default_eq]
      simp only [bind, Except.bind]
      rw [if_pos hshort]
  · intro hlong
    cases kdf_config with
    | some c =>
      rw [make_some_of_long tid rk c hlong]
      rfl
    | none =>
      rw [make_none_of_long tid rk hlong]
      rfl

theorem C6_short_key_rejection_witness :
    (TenantEncryptionService.make tid1 rkShort none).isOk = false ∧
    (TenantEncryptionService.make tid1 rk42 none).isOk = true := by
  constructor
  · obtain ⟨msg, h⟩ := (C6_short_key_rejection tid1 rkShort none).1 (by decide)
    rw [h]
    rfl
  · exact (C6_short_key_rejection tid1 rk42 none).2 (by decide)

/-- C7: `get_service` constructs and stores a service from the manager's
runtime key and config on first access for a tenant id, and any subsequent
call returns exactly the stored instance with the manager unchanged. The
hypothesis rules out the construction failure of a short manager key on
first access; the `_services` function map reflects that a dict holds at
most one value per key. -/
theorem C7_manager_memoization (m : EncryptionServiceManager) (t : String)
    (h : MIN_RUNTIME_KEY_LENGTH ≤ m.runtime_key.length ∨
      (m._services t).isSome = true) :
    ∃ s1 m1, m.get_service t = .ok (s1, m1) ∧
      m1._services t = some s1 ∧
      m1.get_service t = .ok (s1, m1) ∧
      (m._services t = none → s1 = ⟨t, m.runtime_key, m.kdf_config⟩) ∧
      (∀ s0, m._services t = some s0 → s1 = s0 ∧ m1 = m) := by
  cases hs : m._services t with
  | some s0 =>
    refine ⟨s0, m, ?_, hs, ?_, ?_, ?_⟩
    · unfold EncryptionServiceManager.get_service
      rw [hs]
    · unfold EncryptionServiceManager.get_service
      rw [hs]
    · intro hnone
      exact Option.noConfusion hnone
    · intro s0' hsome
      exact ⟨(Option.some.injEq _ _).mp hsome, rfl⟩
  | none =>
    have hlong : MIN_RUNTIME_KEY_LENGTH ≤ m.runtime_key.length := by
      rcases h with h | h
      · exact h
      · rw [hs] at h
        simp at h
    refine ⟨⟨t, m.runtime_key, m.kdf_config⟩,
      { m with _services := fun x => if x = t
          then some ⟨t, m.runtime_key, m.kdf_config⟩ else m._services x },
      ?_, ?_, ?_, fun _ => rfl, ?_⟩
    · unfold EncryptionServiceManager.get_service
      rw [hs, make_some_of_long t m.runtime_key m.kdf_config hlong]
      rfl
    · simp
    · unfold EncryptionServiceManager.get_service
      simp
    · intro s0 hsome
      exact Option.noConfusion hsome

theorem C7_manager_memoization_witness :
    (mgr0.get_service tid1).isOk = true := by
  obtain ⟨s1, m1, hget, _⟩ := C7_manager_memoization mgr0 tid1 (Or.inl (by decide))
  rw [hget]
  rfl

/-- C8: a read through `EncryptedField` on an instance with a bound
service, no cached plaintext, and storage bytes whose decryption raises
`DecryptionError` returns `None` (with the instance unchanged) instead of
propagating the exception. -/
theorem C8_corrupted_returns_none (f : EncryptedField) (obj : PyObj)
    (svc : TenantEncryptionService) (b : List Nat)
    (hsvc : obj.getattrD "_encryption_service" = .service svc)
    (hnocache : obj.hasattr f.private_name = false)
    (hstore : obj.getattrD f.storage_field = .bytes b)
    (hfail : isDecryptionErrorB (svc.decrypt b) = true) :
    f.get obj = .ok (.none, obj) := by
  obtain ⟨msg, hmsg⟩ : ∃ msg, svc.decrypt b = .error (.decryptionError msg) := by
    cases hd : svc.decrypt b with
    | ok v =>
      rw [hd] at hfail
      simp [isDecryptionErrorB] at hfail
    | error e =>
      cases e with
      | decryptionError m => exact ⟨m, rfl⟩
      | encryptionConfigError m =>
        rw [hd] at hfail
        simp [isDecryptionErrorB] at hfail
      | valueError m =>
        rw [hd] at hfail
        simp [isDecryptionErrorB] at hfail
      | runtimeError m =>
        rw [hd] at hfail
        simp [isDecryptionErrorB] at hfail
      | attributeError m =>
        rw [hd] at hfail
        simp [isDecryptionErrorB] at hfail
      | invalidTag =>
        rw [hd] at hfail
        simp [isDecryptionErrorB] at hfail
      | unicodeDecodeError =>
        rw [hd] at hfail
        simp [isDecryptionErrorB] at hfail
  unfold EncryptedField.get
  rw [hnocache]
  simp only [Bool.false_eq_true, if_false, hstore, hsvc, hmsg]

theorem C8_corrupted_returns_none_witness :
    fieldIp.get objCorrupted = .ok (.none, objCorrupted) :=
  C8_corrupted_returns_none fieldIp objCorrupted svcA [1, 2, 3]
    (by decide) (by decide) (by decide) (by decide)

/-- C9: `decrypt` can only ever raise `DecryptionError`: any error it
returns on any input is a `DecryptionError`, and in particular the
unsupported-KDF misconfiguration that makes `encrypt` raise
`EncryptionConfigError` is caught by `decrypt`'s catch-all and re-raised as
`DecryptionError`. -/
theorem C9_decrypt_error_taxonomy (svc : TenantEncryptionService)
    (data : List Nat) :
    (∀ e, svc.decrypt data = .error e → ∃ msg, e = .decryptionError msg) ∧
    (svc.kdf_config.algorithm ≠ "argon2id" → svc.kdf_config.algorithm ≠ "pbkdf2" →
      (∀ salt nonce s, s ≠ "" → svc.encrypt salt nonce s =
        .error (.encryptionConfigError
          ("Unsupported KDF: " ++ svc.kdf_config.algorithm))) ∧
      (data ≠ [] → ∃ msg, svc.decrypt data = .error (.decryptionError msg))) := by
  constructor
  · intro e he
    unfold TenantEncryptionService.decrypt at he
    by_cases hd : data = []
    · rw [if_pos hd] at he
      exact absurd he (by simp)
    · rw [if_neg hd] at he
      cases ha : svc.decryptAttempt data with
      | ok v =>
        rw [ha] at he
        exact absurd he (by simp)
      | error e' =>
        rw [ha] at he
        exact ⟨_, ((Except.error.injEq _ _).mp he).symm⟩
  · intro h1 h2
    constructor
    · intro salt nonce s hs
      unfold TenantEncryptionService.encrypt
      rw [if_neg hs]
      simp only [bind, Except.bind, derive_key_unsupported svc salt h1 h2]
    · intro hne
      have hatt : svc.decryptAttempt data = .error (.encryptionConfigError
          ("Unsupported KDF: " ++ svc.kdf_config.algorithm)) := by
        rw [decryptAttempt_unfold, derive_key_unsupported svc _ h1 h2,
          exceptBindL_err]
      exact ⟨_, decrypt_of_attempt_error svc data _ hne hatt⟩

theorem C9_decrypt_error_taxonomy_witness :
    svcBad.encrypt salt0 nonce0 "x" =
      .error (.encryptionConfigError "Unsupported KDF: scrypt") ∧
    isDecryptionErrorB (svcBad.decrypt [0]) = true := by
  obtain ⟨henc, hdec⟩ := (C9_decrypt_error_taxonomy svcBad [0]).2
    (by decide) (by decide)
  obtain ⟨msg, hmsg⟩ := hdec (by decide)
  refine ⟨?_, by rw [hmsg]; rfl⟩
  rw [henc salt0 nonce0 "x" (by decide)]
  decide

/-- C10: immediately after `__set__` stores a non-null value `v`, a read
through `__get__` serves `v` itself from the per-instance cache with the
instance unchanged — even when `v` is not a string (`__get__` could only
ever produce a string through `decrypt`) — while the storage field holds
`encrypt(str(v))`. -/
theorem C10_set_get_cache (f : EncryptedField) (obj obj' : PyObj) (v : PyValue)
    (svc : TenantEncryptionService) (salt nonce : List Nat)
    (hsvc : obj.getattrD "_encryption_service" = .service svc)
    (hv : v ≠ .none)
    (hnames : f.private_name ≠ f.storage_field)
    (hset : f.set obj v salt nonce = .ok obj') :
    f.get obj' = .ok (v, obj') ∧
    ∃ blob, svc.encrypt salt nonce v.strFn = .ok blob ∧
      obj'.getattrD f.storage_field = .bytes blob := by
  cases he : svc.encrypt salt nonce v.strFn with
  | error e =>
    exfalso
    unfold EncryptedField.set at hset
    rw [if_neg (by simp [hv]), if_neg (by simp [hv]), hsvc] at hset
    simp only [he, bind, Except.bind] at hset
    exact Except.noConfusion hset
  | ok blob =>
    have hset' := set_eq f obj v salt nonce svc blob hsvc hv he
    rw [hset'] at hset
    have hobj : obj' =
        (obj.setattr f.storage_field (.bytes blob)).setattr f.private_name v :=
      ((Except.ok.injEq _ _).mp hset).symm
    subst hobj
    refine ⟨?_, blob, rfl, ?_⟩
    · rw [get_cached f _ (hasattr_setattr_self _ _ _), getattrD_setattr_self]
    · rw [getattrD_setattr_ne _ _ _ _ (Ne.symm hnames), getattrD_setattr_self]

theorem C10_set_get_cache_witness :
    (fieldIp.set objWithSvc vOther salt0 nonce0).isOk = true ∧
    fieldIp.get (okD (fieldIp.set objWithSvc vOther salt0 nonce0) objWithSvc) =
      .ok (vOther, okD (fieldIp.set objWithSvc vOther salt0 nonce0) objWithSvc) := by
  have hkey := derive_key_argon2 svcA salt0 rfl
  have haes : AESGCM_new (hash_secret_raw
      (utf8Encode svcA.tenant_id ++ svcA.runtime_key) salt0
      svcA.kdf_config.time_cost svcA.kdf_config.memory_cost
      svcA.kdf_config.parallelism svcA.kdf_config.key_length) = .ok _ :=
    AESGCM_new_ok _ (Or.inr (Or.inr (hash_secret_raw_length _ _ _ _ _ _)))
  have henc := encrypt_eq svcA salt0 nonce0 vOther.strFn _ (by decide) hkey haes
  have hset := set_eq fieldIp objWithSvc vOther salt0 nonce0 svcA _
    (by decide) (by decide) henc
  rw [hset]
  exact ⟨rfl, (C10_set_get_cache fieldIp objWithSvc _ vOther svcA salt0 nonce0
    (by decide) (by decide) (by decide) hset).1⟩
